import Mathlib

/-!
Shallow embedding of the thejord-api scheduled-publication subsystem and the
posts routes, translated from `src/unnamed/part_000` (the Express server with
the cron sweep and `revalidateCache`) and `src/src/routes/posts.ts`.

Timestamps are modelled as `Nat` (milliseconds since epoch); the database is a
`List Post`.  The Prisma filter `scheduledAt: { lte: now }` matches a row
exactly when `scheduledAt` is non-null and `≤ now`, which is what `isDue`
encodes.  SEO metadata fields (keywords, metaTitle, metaDescription, ogImage,
canonicalUrl, editorType) and presentation fields (readTime, image, icon) are
carried by no claim and are omitted from the record.
-/

namespace TheJordApi

structure Post where
  id : String
  slug : String
  language : String
  title : String
  excerpt : String
  content : String
  author : String
  tags : List String
  published : Bool
  publishedAt : Option Nat
  scheduledAt : Option Nat
  translationGroup : Option String
  createdAt : Nat
  updatedAt : Nat
deriving DecidableEq

/-- The `where` clause of the sweep query `findMany`
(`published: false, scheduledAt: { lte: now }`): a nullable-column `lte`
filter matches only non-null values. -/
def isDue (now : Nat) (p : Post) : Bool :=
  (p.published == false) && p.scheduledAt.any (fun t => decide (t ≤ now))

/-- The selection query `prisma.blog_posts.findMany({ where: { published: false, scheduledAt: { lte: now } } })`. -/
def sweepQuery (now : Nat) (db : List Post) : List Post :=
  db.filter (isDue now)

/-- The field assignment of the per-post update of the sweep:
`published: true, publishedAt: now, scheduledAt: null, updatedAt: now`. -/
def pub (now : Nat) (p : Post) : Post :=
  { p with published := true, publishedAt := some now,
           scheduledAt := none, updatedAt := now }

/-- The update `prisma.blog_posts.update({ where: { id }, data: ... })`: the row is
selected by `id` alone — the update is not conditioned on `published` or
`scheduledAt` still matching the sweep predicate. -/
def publishUpdate (now : Nat) (id : String) (db : List Post) : List Post :=
  db.map (fun p => if p.id == id then pub now p else p)

/-! ### Cache Invalidation Notifier (`revalidateCache`) -/

structure RevalidateBody where
  path : String
  slug : String
deriving DecidableEq

structure HttpRequest where
  url : String
  method : String
  contentType : String
  authorization : String
  body : RevalidateBody
deriving DecidableEq

/-- Outcome of the outbound `fetch`: either a response with some status code,
or the promise rejecting (network error / timeout). -/
inductive FetchOutcome where
  | response (status : Nat)
  | networkError
deriving DecidableEq

/-- The `Response.ok` flag of the Fetch API: status in the range 200–299. -/
def responseOk (status : Nat) : Bool :=
  decide (200 ≤ status) && decide (status < 300)

inductive LogLine where
  | publishedPost (title language : String)
  | revalidated (slug language : String)
  | revalidateFailed (slug : String) (status : Nat)
  | revalidateError (slug : String)
  | cronError
deriving DecidableEq

/-- The single request built by `revalidateCache`. -/
def buildRevalidateRequest (frontendUrl revalidateToken slug : String) : HttpRequest :=
  { url := frontendUrl ++ "/api/revalidate"
    method := "POST"
    contentType := "application/json"
    authorization := "Bearer " ++ revalidateToken
    body := { path := "/blog", slug := slug } }

/-- The helper `revalidateCache(slug, language)`: issues the request, then classifies the
outcome.  The `try`/`catch` around the `fetch` means the function returns
normally on every outcome — a rejection becomes the `revalidateError` log
line, a non-2xx status the `revalidateFailed` warning. -/
def revalidateCache (frontendUrl revalidateToken slug language : String)
    (outcome : FetchOutcome) : HttpRequest × LogLine :=
  (buildRevalidateRequest frontendUrl revalidateToken slug,
   match outcome with
   | FetchOutcome.response status =>
       if responseOk status then LogLine.revalidated slug language
       else LogLine.revalidateFailed slug status
   | FetchOutcome.networkError => LogLine.revalidateError slug)

/-! ### The cron sweep -/

inductive DbError where
  | queryFailed
  | updateFailed (id : String)
deriving DecidableEq

/-- Failure/outside-world model for one sweep: whether the `findMany` throws,
which per-post updates throw, and the fetch outcome for each
`(slug, language)` the notifier is called with. -/
structure SweepEnv where
  queryFails : Bool
  updateFails : String → Bool
  fetchOutcome : String → String → FetchOutcome
  frontendUrl : String
  revalidateToken : String

structure SweepState where
  db : List Post
  requests : List HttpRequest
  notified : List (String × String)
  logs : List LogLine
deriving DecidableEq

/-- The `for (const post of postsToPublish)` loop.  Each iteration awaits the
update — if it throws, the exception leaves the loop at once (there is no
per-post `try`/`catch`) — then logs, then awaits `revalidateCache`, which
never throws. -/
def sweepLoop (env : SweepEnv) (now : Nat) :
    List Post → SweepState → SweepState × Option DbError
  | [], s => (s, none)
  | p :: todo, s =>
    if env.updateFails p.id then
      (s, some (DbError.updateFailed p.id))
    else
      sweepLoop env now todo
        { db := publishUpdate now p.id s.db
          requests := s.requests ++
            [(revalidateCache env.frontendUrl env.revalidateToken p.slug p.language
                (env.fetchOutcome p.slug p.language)).1]
          notified := s.notified ++ [(p.slug, p.language)]
          logs := s.logs ++
            [LogLine.publishedPost p.title p.language,
             (revalidateCache env.frontendUrl env.revalidateToken p.slug p.language
                (env.fetchOutcome p.slug p.language)).2] }

/-- The body of the `try` block of the cron callback: the query, then the loop.
The second component is the exception that escapes the body, if any. -/
def sweepBody (env : SweepEnv) (now : Nat) (db : List Post) :
    SweepState × Option DbError :=
  if env.queryFails then (⟨db, [], [], []⟩, some DbError.queryFailed)
  else sweepLoop env now (sweepQuery now db) ⟨db, [], [], []⟩

structure SweepResult where
  db : List Post
  requests : List HttpRequest
  notified : List (String × String)
  logs : List LogLine
  caughtError : Bool
deriving DecidableEq

/-- The whole `cron.schedule` callback: the body wrapped in `try`/`catch`.
Any exception from the body is converted into an error log; the callback
itself always returns normally. -/
def cronCallback (env : SweepEnv) (now : Nat) (db : List Post) : SweepResult :=
  match sweepBody env now db with
  | (s, none) => ⟨s.db, s.requests, s.notified, s.logs, false⟩
  | (s, some _) => ⟨s.db, s.requests, s.notified, s.logs ++ [LogLine.cronError], true⟩

/-- Two sweeps overlapping so that both `findMany` calls run before either
loop starts (an interleaving the single-threaded event loop permits, since
each sweep suspends at every awaited database call).  No failures are
injected: the scenario isolates the concurrency behaviour. -/
def overlapBothQueriesFirst (env1 env2 : SweepEnv) (now1 now2 : Nat)
    (db : List Post) : SweepState × SweepState :=
  let q1 := sweepQuery now1 db
  let q2 := sweepQuery now2 db
  let r1 := sweepLoop env1 now1 q1 ⟨db, [], [], []⟩
  let r2 := sweepLoop env2 now2 q2 ⟨r1.1.db, [], [], []⟩
  (r1.1, r2.1)

/-! ### Posts routes (`src/src/routes/posts.ts`) -/

/-- JavaScript truthiness of `req.headers.authorization`: absent or empty
string is falsy, any other string truthy. -/
def truthyHeader : Option String → Bool
  | none => false
  | some s => !(s == "")

def isHexDigit (c : Char) : Bool :=
  (decide ('0' ≤ c) && decide (c ≤ '9')) ||
  (decide ('a' ≤ c) && decide (c ≤ 'f')) ||
  (decide ('A' ≤ c) && decide (c ≤ 'F'))

/-- The UUID test of the GET handler:
`/^[0-9a-f]{8}-[0-9a-f]{4}-[0-9a-f]{4}-[0-9a-f]{4}-[0-9a-f]{12}$/i`. -/
def isUUID (s : String) : Bool :=
  let cs := s.toList
  (cs.length == 36) &&
  (List.range 36).all (fun i =>
    if i == 8 || i == 13 || i == 18 || i == 23 then cs.getD i '*' == '-'
    else isHexDigit (cs.getD i '*'))

/-- The lookup of `GET /api/posts/:slugOrId`: by id for a UUID parameter,
otherwise by the `slug_language` unique key. -/
def lookupPost (db : List Post) (slugOrId lang : String) : Option Post :=
  if isUUID slugOrId then db.find? (fun p => p.id == slugOrId)
  else db.find? (fun p => (p.slug == slugOrId) && (p.language == lang))

inductive GetPostResponse where
  | notFound
  | ok (post : Post)
deriving DecidableEq

/-- Handler of `GET /api/posts/:slugOrId`: 404 when nothing is found, 404 when the post
is unpublished and the request carries no (truthy) `Authorization` header —
the header value is never verified — otherwise the full post. -/
def getPostHandler (db : List Post) (slugOrId lang : String)
    (authorization : Option String) : GetPostResponse :=
  match lookupPost db slugOrId lang with
  | none => GetPostResponse.notFound
  | some p =>
    if !p.published && !truthyHeader authorization then GetPostResponse.notFound
    else GetPostResponse.ok p

/-- Request body of `POST /api/posts`.  `published` is a plain `Bool` because
the handler reduces any body value to a boolean via `published || false`. -/
structure CreatePostBody where
  id : Option String
  slug : Option String
  language : Option String
  title : Option String
  excerpt : Option String
  content : Option String
  author : Option String
  tags : Option (List String)
  published : Bool
  publishedAt : Option Nat
  scheduledAt : Option Nat
  translationGroup : Option String

/-- JavaScript truthiness of a required string field (`!slug` is true for
both a missing field and an empty string). -/
def fieldPresent : Option String → Bool
  | none => false
  | some s => !(s == "")

inductive CreateResult where
  | badRequest
  | conflict
  | created (post : Post)
deriving DecidableEq

/-- Handler of `POST /api/posts`: validates the required fields, computes
`finalPublishedAt` (`published ? (publishedAt ?? now) : null`) and
`finalScheduledAt` (`scheduledAt ?? null`), and inserts the row.  A
`(slug, language)` collision is the P2002 conflict path.  Nothing relates
`published` to `scheduledAt`. -/
def createPostHandler (now : Nat) (genId : String) (db : List Post)
    (b : CreatePostBody) : CreateResult × List Post :=
  if !(fieldPresent b.slug && fieldPresent b.language && fieldPresent b.title &&
       fieldPresent b.excerpt && fieldPresent b.content) then
    (CreateResult.badRequest, db)
  else
    let slug := b.slug.getD ""
    let language := b.language.getD ""
    if db.any (fun p => (p.slug == slug) && (p.language == language)) then
      (CreateResult.conflict, db)
    else
      let post : Post :=
        { id := b.id.getD genId
          slug := slug
          language := language
          title := b.title.getD ""
          excerpt := b.excerpt.getD ""
          content := b.content.getD ""
          author := b.author.getD "THEJORD Team"
          tags := b.tags.getD []
          published := b.published
          publishedAt := if b.published then some (b.publishedAt.getD now) else none
          scheduledAt := b.scheduledAt
          translationGroup := b.translationGroup
          createdAt := now
          updatedAt := now }
      (CreateResult.created post, db ++ [post])

/-- Request body of `PUT /api/posts/:id`: every field optional; a present
field overwrites the stored value (for nullable columns the written value may
itself be null).  `id` and `createdAt` are deleted from the body by the
handler and so do not appear. -/
structure UpdatePostBody where
  slug : Option String
  language : Option String
  title : Option String
  excerpt : Option String
  content : Option String
  author : Option String
  tags : Option (List String)
  published : Option Bool
  publishedAt : Option (Option Nat)
  scheduledAt : Option (Option Nat)
  translationGroup : Option (Option String)
  updatedAt : Option Nat

def applyUpdate (b : UpdatePostBody) (p : Post) : Post :=
  { id := p.id
    slug := b.slug.getD p.slug
    language := b.language.getD p.language
    title := b.title.getD p.title
    excerpt := b.excerpt.getD p.excerpt
    content := b.content.getD p.content
    author := b.author.getD p.author
    tags := b.tags.getD p.tags
    published := b.published.getD p.published
    publishedAt := b.publishedAt.getD p.publishedAt
    scheduledAt := b.scheduledAt.getD p.scheduledAt
    translationGroup := b.translationGroup.getD p.translationGroup
    createdAt := p.createdAt
    updatedAt := b.updatedAt.getD p.updatedAt }

inductive UpdateResult where
  | updNotFound
  | updated (post : Post)
deriving DecidableEq

/-- Handler of `PUT /api/posts/:id`: `prisma.blog_posts.update({ where: { id }, data })`;
P2025 (no row with that id) is the 404 path.  The data is applied as-is — no
validation ties `published` to `scheduledAt`. -/
def updatePostHandler (db : List Post) (id : String) (b : UpdatePostBody) :
    UpdateResult × List Post :=
  match db.find? (fun p => p.id == id) with
  | none => (UpdateResult.updNotFound, db)
  | some p =>
      (UpdateResult.updated (applyUpdate b p),
       db.map (fun r => if r.id == id then applyUpdate b r else r))

/-! ### Helper lemmas about the sweep -/

@[simp] theorem pub_id (now : Nat) (p : Post) : (pub now p).id = p.id := rfl

@[simp] theorem pub_slug (now : Nat) (p : Post) : (pub now p).slug = p.slug := rfl

@[simp] theorem pub_language (now : Nat) (p : Post) : (pub now p).language = p.language := rfl

@[simp] theorem pub_published (now : Nat) (p : Post) : (pub now p).published = true := rfl

@[simp] theorem pub_publishedAt (now : Nat) (p : Post) : (pub now p).publishedAt = some now := rfl

@[simp] theorem pub_scheduledAt (now : Nat) (p : Post) : (pub now p).scheduledAt = none := rfl

@[simp] theorem pub_updatedAt (now : Nat) (p : Post) : (pub now p).updatedAt = now := rfl

@[simp] theorem pub_pub (now : Nat) (p : Post) : pub now (pub now p) = pub now p := rfl

@[simp] theorem pub_pub2 (n m : Nat) (p : Post) : pub m (pub n p) = pub m p := rfl

@[simp] theorem revalidateCache_fst (f t s l : String) (o : FetchOutcome) :
    (revalidateCache f t s l o).1 = buildRevalidateRequest f t s := rfl

/-- Short name for the log line of the notifier in one loop iteration. -/
def notifyLog (env : SweepEnv) (q : Post) : LogLine :=
  (revalidateCache env.frontendUrl env.revalidateToken q.slug q.language
      (env.fetchOutcome q.slug q.language)).2

/-- Applying a by-id update and then a later batch of by-id updates is one
batch of by-id updates: `pub` does not change ids and is idempotent. -/
theorem publishUpdate_map_fuse (now : Nat) (i : String) (todo : List Post)
    (db : List Post) :
    (publishUpdate now i db).map
        (fun r => if todo.any (fun q => r.id == q.id) then pub now r else r)
      = db.map (fun r =>
          if ((r.id == i) || todo.any (fun q => r.id == q.id)) then pub now r else r) := by
  unfold publishUpdate
  rw [List.map_map]
  have hfg : ((fun r => if todo.any (fun q => r.id == q.id) then pub now r else r) ∘
      (fun p => if p.id == i then pub now p else p))
      = (fun r => if ((r.id == i) || todo.any (fun q => r.id == q.id))
                  then pub now r else r) := by
    funext r
    by_cases h : (r.id == i) = true
    · have h' : r.id = i := by simpa using h
      simp [h, h']
    · have h' : ¬(r.id = i) := by simpa using h
      simp [h, h']
  rw [hfg]

/-- Full characterization of the per-post loop: the posts processed are the
longest prefix of the batch on which the update does not throw; each
processed post contributes one by-id update, one notifier call (hence one
request and one notified pair) and two log lines; the first failing post, if
any, is the exception that escapes the loop. -/
theorem sweepLoop_eq (env : SweepEnv) (now : Nat) (todo : List Post) :
    ∀ s : SweepState,
    sweepLoop env now todo s =
      ({ db := s.db.map (fun r =>
            if (todo.takeWhile (fun q => !env.updateFails q.id)).any
                 (fun q => r.id == q.id)
            then pub now r else r)
         requests := s.requests ++
           (todo.takeWhile (fun q => !env.updateFails q.id)).map
             (fun q => buildRevalidateRequest env.frontendUrl env.revalidateToken q.slug)
         notified := s.notified ++
           (todo.takeWhile (fun q => !env.updateFails q.id)).map
             (fun q => (q.slug, q.language))
         logs := s.logs ++
           (todo.takeWhile (fun q => !env.updateFails q.id)).flatMap
             (fun q => [LogLine.publishedPost q.title q.language, notifyLog env q]) },
       ((todo.dropWhile (fun q => !env.updateFails q.id)).head?).map
         (fun q => DbError.updateFailed q.id)) := by
  induction todo with
  | nil => intro s; simp [sweepLoop]
  | cons p todo ih =>
    intro s
    by_cases hf : env.updateFails p.id = true
    · have hpred : (fun q : Post => !env.updateFails q.id) p = false := by simp [hf]
      simp [sweepLoop, hf, List.takeWhile_cons, List.dropWhile_cons, hpred]
    · have hb : env.updateFails p.id = false := by
        cases h : env.updateFails p.id
        · rfl
        · exact absurd h hf
      have htw : List.takeWhile (fun q : Post => !env.updateFails q.id) (p :: todo)
          = p :: List.takeWhile (fun q : Post => !env.updateFails q.id) todo := by
        simp [List.takeWhile_cons, hb]
      have hdw : List.dropWhile (fun q : Post => !env.updateFails q.id) (p :: todo)
          = List.dropWhile (fun q : Post => !env.updateFails q.id) todo := by
        simp [List.dropWhile_cons, hb]
      rw [htw, hdw]
      simp only [sweepLoop]
      rw [if_neg hf]
      rw [ih]
      simp only [Prod.mk.injEq, SweepState.mk.injEq]
      refine ⟨⟨?_, ?_, ?_, ?_⟩, trivial⟩
      · rw [publishUpdate_map_fuse]
        simp [List.any_cons]
      · simp [notifyLog, List.append_assoc]
      · simp [List.append_assoc]
      · simp [notifyLog, List.flatMap_cons, List.append_assoc]

/-- With no injected update failure the whole batch is processed. -/
theorem takeWhile_no_failure (env : SweepEnv)
    (h : ∀ i, env.updateFails i = false) (todo : List Post) :
    todo.takeWhile (fun q => !env.updateFails q.id) = todo :=
  List.takeWhile_eq_self_iff.mpr (fun q _ => by simp [h q.id])

/-- With no injected update failure no exception escapes the loop. -/
theorem dropWhile_no_failure (env : SweepEnv)
    (h : ∀ i, env.updateFails i = false) (todo : List Post) :
    todo.dropWhile (fun q => !env.updateFails q.id) = [] :=
  List.dropWhile_eq_nil_iff.mpr (fun q _ => by simp [h q.id])

/-- A sweep whose `findMany` throws leaves the database untouched; the outer
`catch` turns the exception into an error log. -/
theorem cronCallback_queryFails (env : SweepEnv) (now : Nat) (db : List Post)
    (h : env.queryFails = true) :
    cronCallback env now db = ⟨db, [], [], [LogLine.cronError], true⟩ := by
  unfold cronCallback sweepBody
  rw [h]
  simp

/-- Full characterization of one cron tick when the query succeeds: the
processed posts are the longest prefix of the selection whose updates do not
throw; the error flag records whether some update threw. -/
theorem cronCallback_eq (env : SweepEnv) (now : Nat) (db : List Post)
    (h : env.queryFails = false) :
    cronCallback env now db =
      { db := db.map (fun r =>
            if ((sweepQuery now db).takeWhile (fun q => !env.updateFails q.id)).any
                 (fun q => r.id == q.id)
            then pub now r else r)
        requests := ((sweepQuery now db).takeWhile (fun q => !env.updateFails q.id)).map
            (fun q => buildRevalidateRequest env.frontendUrl env.revalidateToken q.slug)
        notified := ((sweepQuery now db).takeWhile (fun q => !env.updateFails q.id)).map
            (fun q => (q.slug, q.language))
        logs := (((sweepQuery now db).takeWhile (fun q => !env.updateFails q.id)).flatMap
            (fun q => [LogLine.publishedPost q.title q.language, notifyLog env q])) ++
            (if ((sweepQuery now db).dropWhile (fun q => !env.updateFails q.id)).head?.isSome
             then [LogLine.cronError] else [])
        caughtError :=
          ((sweepQuery now db).dropWhile (fun q => !env.updateFails q.id)).head?.isSome } := by
  unfold cronCallback sweepBody
  rw [h]
  simp only [Bool.false_eq_true, if_false]
  rw [sweepLoop_eq]
  cases ((sweepQuery now db).dropWhile (fun q => !env.updateFails q.id)).head? with
  | none => simp
  | some q => simp

/-- The fully successful sweep: the final database is the input database with
`pub` applied to exactly the rows whose id occurs in the selection, and the
notifier is called once per selected post, in selection order. -/
theorem cronCallback_ok (env : SweepEnv) (now : Nat) (db : List Post)
    (h1 : env.queryFails = false) (h2 : ∀ i, env.updateFails i = false) :
    cronCallback env now db =
      { db := db.map (fun r =>
            if (sweepQuery now db).any (fun q => r.id == q.id) then pub now r else r)
        requests := (sweepQuery now db).map
            (fun q => buildRevalidateRequest env.frontendUrl env.revalidateToken q.slug)
        notified := (sweepQuery now db).map (fun q => (q.slug, q.language))
        logs := (sweepQuery now db).flatMap
            (fun q => [LogLine.publishedPost q.title q.language, notifyLog env q])
        caughtError := false } := by
  unfold cronCallback sweepBody
  rw [h1]
  simp only [Bool.false_eq_true, if_false]
  rw [sweepLoop_eq]
  rw [takeWhile_no_failure env h2, dropWhile_no_failure env h2]
  simp

/-- The branching of a by-id update never changes the id of a row. -/
theorem ite_pub_id (c : Prop) [Decidable c] (now : Nat) (r : Post) :
    (if c then pub now r else r).id = r.id := by
  split <;> rfl

theorem ite_pub_slug (c : Prop) [Decidable c] (now : Nat) (r : Post) :
    (if c then pub now r else r).slug = r.slug := by
  split <;> rfl

theorem ite_pub_language (c : Prop) [Decidable c] (now : Nat) (r : Post) :
    (if c then pub now r else r).language = r.language := by
  split <;> rfl

/-- A post already flipped to `published = true` can never satisfy the sweep
predicate again, whatever `now` is. -/
theorem isDue_pub (now later : Nat) (p : Post) : isDue later (pub now p) = false := by
  simp [isDue]

theorem isDue_of_fields (now : Nat) (p : Post) (t : Nat)
    (hpub : p.published = false) (hsched : p.scheduledAt = some t) (ht : t ≤ now) :
    isDue now p = true := by
  simp [isDue, hpub, hsched, ht]

theorem not_isDue_of_not_past (now : Nat) (p : Post)
    (h : ∀ t, p.scheduledAt = some t → now < t) : isDue now p = false := by
  unfold isDue
  cases hs : p.scheduledAt with
  | none => simp
  | some t =>
    have ht := h t hs
    have : ¬(t ≤ now) := Nat.not_le.mpr ht
    simp [this]

theorem mem_sweepQuery (now : Nat) (db : List Post) (p : Post)
    (hp : p ∈ db) (hdue : isDue now p = true) : p ∈ sweepQuery now db := by
  simp [sweepQuery, List.mem_filter, hp, hdue]

theorem takeWhile_append_cons_stop {α : Type} (pred : α → Bool) (pre : List α)
    (p : α) (rest : List α)
    (hpre : ∀ q ∈ pre, pred q = true) (hp : pred p = false) :
    (pre ++ p :: rest).takeWhile pred = pre := by
  induction pre with
  | nil => simp [List.takeWhile_cons, hp]
  | cons a pre ih =>
    have ha : pred a = true := hpre a (by simp)
    simp only [List.cons_append, List.takeWhile_cons, ha, if_true]
    rw [ih (fun q hq => hpre q (by simp [hq]))]

theorem dropWhile_append_cons_stop {α : Type} (pred : α → Bool) (pre : List α)
    (p : α) (rest : List α)
    (hpre : ∀ q ∈ pre, pred q = true) (hp : pred p = false) :
    (pre ++ p :: rest).dropWhile pred = p :: rest := by
  induction pre with
  | nil => simp [List.dropWhile_cons, hp]
  | cons a pre ih =>
    have ha : pred a = true := hpre a (by simp)
    simp only [List.cons_append, List.dropWhile_cons, ha, if_true]
    exact ih (fun q hq => hpre q (by simp [hq]))

/-- The `Response.ok` flag holds exactly for the 2xx statuses. -/
theorem responseOk_iff (st : Nat) : responseOk st = true ↔ (200 ≤ st ∧ st < 300) := by
  simp [responseOk]

/-- The invariant of claim C4: a published post has no pending schedule. -/
def schedInvariant (p : Post) : Bool := !p.published || p.scheduledAt.isNone

/-! ### Concrete fixtures for witnesses and counterexamples -/

def okEnv : SweepEnv :=
  { queryFails := false
    updateFails := fun _ => false
    fetchOutcome := fun _ _ => FetchOutcome.response 200
    frontendUrl := "https://thejord.it"
    revalidateToken := "dev-token-change-in-production" }

/-- An environment in which the per-post update for post id `a1` throws. -/
def failFirstEnv : SweepEnv :=
  { queryFails := false
    updateFails := fun i => i == "a1"
    fetchOutcome := fun _ _ => FetchOutcome.response 200
    frontendUrl := "https://thejord.it"
    revalidateToken := "dev-token-change-in-production" }

def samplePost : Post :=
  { id := "a1", slug := "hello-world", language := "it", title := "Ciao"
    excerpt := "ex", content := "body", author := "THEJORD Team", tags := ["dev"]
    published := false, publishedAt := none, scheduledAt := some 90
    translationGroup := none, createdAt := 10, updatedAt := 10 }

def samplePost2 : Post :=
  { id := "b2", slug := "second-post", language := "en", title := "Second"
    excerpt := "ex2", content := "body2", author := "THEJORD Team", tags := []
    published := false, publishedAt := none, scheduledAt := some 50
    translationGroup := none, createdAt := 11, updatedAt := 11 }

/-- A post scheduled in the future relative to `now = 100`. -/
def futurePost : Post :=
  { id := "f9", slug := "future-post", language := "en", title := "Later"
    excerpt := "ex", content := "body", author := "THEJORD Team", tags := []
    published := false, publishedAt := none, scheduledAt := some 1000
    translationGroup := none, createdAt := 12, updatedAt := 12 }

/-- An already-published post, satisfying the schedule invariant. -/
def livePost : Post :=
  { id := "l7", slug := "live-post", language := "en", title := "Live"
    excerpt := "ex", content := "body", author := "THEJORD Team", tags := []
    published := true, publishedAt := some 40, scheduledAt := none
    translationGroup := none, createdAt := 12, updatedAt := 40 }

/-- A create body asking for `published = true` together with a pending
`scheduledAt` — the handler validates neither. -/
def violCreateBody : CreatePostBody :=
  { id := some "c3", slug := some "launch", language := some "en", title := some "T"
    excerpt := some "E", content := some "C", author := none, tags := none
    published := true, publishedAt := none, scheduledAt := some 100
    translationGroup := none }

/-- An edit body that sets `scheduledAt` on a post without touching
`published`. -/
def violUpdateBody : UpdatePostBody :=
  { slug := none, language := none, title := none, excerpt := none
    content := none, author := none, tags := none, published := none
    publishedAt := none, scheduledAt := some (some 200)
    translationGroup := none, updatedAt := none }

/-! ### Claim theorems -/

/-- C1: every post with `published = false` and a non-null `scheduledAt ≤ now`
at the start of a sweep is, after one sweep in which the query and all
updates succeed, stored with `published = true`, `publishedAt = now`,
`scheduledAt = null` and `updatedAt = now`. -/
theorem sweep_publishes_due_posts (env : SweepEnv) (now : Nat) (db : List Post)
    (p : Post) (t : Nat)
    (h1 : env.queryFails = false) (h2 : ∀ i, env.updateFails i = false)
    (hp : p ∈ db) (hpub : p.published = false)
    (hsched : p.scheduledAt = some t) (ht : t ≤ now) :
    ∃ q ∈ (cronCallback env now db).db,
      q.id = p.id ∧ q.published = true ∧ q.publishedAt = some now ∧
      q.scheduledAt = none ∧ q.updatedAt = now := by
  have hq : p ∈ sweepQuery now db :=
    mem_sweepQuery now db p hp (isDue_of_fields now p t hpub hsched ht)
  rw [cronCallback_ok env now db h1 h2]
  refine ⟨pub now p, ?_, rfl, rfl, rfl, rfl, rfl⟩
  have hany : (sweepQuery now db).any (fun q => p.id == q.id) = true :=
    List.any_eq_true.mpr ⟨p, hq, by simp⟩
  have hf : (if (sweepQuery now db).any (fun q => p.id == q.id) then pub now p else p)
      = pub now p := by rw [hany]; simp
  rw [← hf]
  exact List.mem_map_of_mem _ hp

/-- C1 witness: a post scheduled at 90 is published by the sweep at 100. -/
theorem sweep_publishes_due_posts_witness :
    ∃ q ∈ (cronCallback okEnv 100 [samplePost]).db,
      q.id = samplePost.id ∧ q.published = true ∧ q.publishedAt = some 100 ∧
      q.scheduledAt = none ∧ q.updatedAt = 100 :=
  sweep_publishes_due_posts okEnv 100 [samplePost] samplePost 90 rfl (fun _ => rfl)
    (by simp) rfl rfl (by decide)

/-- C9: every error raised inside the sweep body — query failure or any
per-post update failure, under any notification outcomes — is caught by the
`try`/`catch` of the callback: the callback always returns a normal `SweepResult`
(it is a total function into `SweepResult`, with no error channel), the
caught flag records exactly whether the body raised, and the state reached
at the catch point is what the callback returns. -/
theorem cron_catches_all_errors (env : SweepEnv) (now : Nat) (db : List Post) :
    (cronCallback env now db).caughtError = (sweepBody env now db).2.isSome ∧
    (cronCallback env now db).db = (sweepBody env now db).1.db ∧
    (cronCallback env now db).requests = (sweepBody env now db).1.requests ∧
    (cronCallback env now db).notified = (sweepBody env now db).1.notified := by
  rcases h : sweepBody env now db with ⟨s, e⟩
  unfold cronCallback
  rw [h]
  cases e <;> simp

/-- C10: for an existing post with `published = false`, the GET handler
returns 404 when the request carries no `Authorization` header, and returns
the full post for any non-empty header value — the value itself is never
verified. -/
theorem unpublished_post_auth_gate (db : List Post) (slugOrId lang : String)
    (p : Post) (hfind : lookupPost db slugOrId lang = some p)
    (hpub : p.published = false) :
    getPostHandler db slugOrId lang none = GetPostResponse.notFound ∧
    ∀ tok : String, tok ≠ "" →
      getPostHandler db slugOrId lang (some tok) = GetPostResponse.ok p := by
  constructor
  · unfold getPostHandler
    rw [hfind]
    simp [hpub, truthyHeader]
  · intro tok htok
    unfold getPostHandler
    rw [hfind]
    have : truthyHeader (some tok) = true := by
      simp [truthyHeader, htok]
    simp [this]

/-- C10 witness: the draft `samplePost` is hidden without a header and fully
served with the unverified header value `"anything"`. -/
theorem unpublished_post_auth_gate_witness :
    getPostHandler [samplePost] "hello-world" "it" none = GetPostResponse.notFound ∧
    ∀ tok : String, tok ≠ "" →
      getPostHandler [samplePost] "hello-world" "it" (some tok)
        = GetPostResponse.ok samplePost :=
  unpublished_post_auth_gate [samplePost] "hello-world" "it" samplePost
    (by decide) rfl

/-- Characterization of the both-queries-first overlap of two failure-free
sweeps: both loops run over selections taken from the original database, and
the by-id updates of the second loop apply on top of the result of the first. -/
theorem overlap_eq (env1 env2 : SweepEnv) (now1 now2 : Nat) (db : List Post)
    (h1 : ∀ i, env1.updateFails i = false) (h2 : ∀ i, env2.updateFails i = false) :
    overlapBothQueriesFirst env1 env2 now1 now2 db =
      ({ db := db.map (fun r =>
            if ((sweepQuery now1 db).any (fun q => r.id == q.id)) then pub now1 r else r)
         requests := (sweepQuery now1 db).map
            (fun q => buildRevalidateRequest env1.frontendUrl env1.revalidateToken q.slug)
         notified := (sweepQuery now1 db).map (fun q => (q.slug, q.language))
         logs := (sweepQuery now1 db).flatMap
            (fun q => [LogLine.publishedPost q.title q.language, notifyLog env1 q]) },
       { db := (db.map (fun r =>
            if ((sweepQuery now1 db).any (fun q => r.id == q.id))
            then pub now1 r else r)).map (fun r =>
              if ((sweepQuery now2 db).any (fun q => r.id == q.id)) then pub now2 r else r)
         requests := (sweepQuery now2 db).map
            (fun q => buildRevalidateRequest env2.frontendUrl env2.revalidateToken q.slug)
         notified := (sweepQuery now2 db).map (fun q => (q.slug, q.language))
         logs := (sweepQuery now2 db).flatMap
            (fun q => [LogLine.publishedPost q.title q.language, notifyLog env2 q]) }) := by
  unfold overlapBothQueriesFirst
  dsimp only
  rw [sweepLoop_eq, takeWhile_no_failure env1 h1, sweepLoop_eq,
      takeWhile_no_failure env2 h2]
  simp

/-- C5 counterexample: with both selection queries running before either
update — an interleaving the asynchronous sweep permits, since it suspends
at every awaited call — both sweeps select the same due post, both by-id
updates apply (the second visibly overwrites `publishedAt` with its own
timestamp 160, so it did not match zero rows), and the notifier fires once
per sweep: twice for the post. -/
theorem overlap_double_notify_cex :
    (overlapBothQueriesFirst okEnv okEnv 100 160 [samplePost]).1.notified
        = [("hello-world", "it")] ∧
    (overlapBothQueriesFirst okEnv okEnv 100 160 [samplePost]).2.notified
        = [("hello-world", "it")] ∧
    (overlapBothQueriesFirst okEnv okEnv 100 160 [samplePost]).2.db
        = [pub 160 samplePost] := by
  decide

/-- C5 amended: when two sweeps overlap so that the query of the second sweep
runs only after the update of the first, the post no longer matches and the
second sweep skips it (the sequential case, claim C2); but in the
interleaving where both queries run before either update, both sweeps select
the due post, both updates apply — the update is keyed by post id alone, not
by the `published=false AND scheduledAt<=now` predicate — and the notifier
fires once per sweep, i.e. twice for that post. -/
theorem overlap_both_queries_first_double_publish (env1 env2 : SweepEnv)
    (now1 now2 : Nat) (db : List Post) (p : Post) (t : Nat)
    (h1 : ∀ i, env1.updateFails i = false) (h2 : ∀ i, env2.updateFails i = false)
    (hp : p ∈ db) (hpub : p.published = false) (hsched : p.scheduledAt = some t)
    (ht : t ≤ now1) (h12 : now1 ≤ now2) :
    (p.slug, p.language) ∈ (overlapBothQueriesFirst env1 env2 now1 now2 db).1.notified ∧
    (p.slug, p.language) ∈ (overlapBothQueriesFirst env1 env2 now1 now2 db).2.notified ∧
    pub now2 p ∈ (overlapBothQueriesFirst env1 env2 now1 now2 db).2.db := by
  have hq1 : p ∈ sweepQuery now1 db :=
    mem_sweepQuery now1 db p hp (isDue_of_fields now1 p t hpub hsched ht)
  have hq2 : p ∈ sweepQuery now2 db :=
    mem_sweepQuery now2 db p hp (isDue_of_fields now2 p t hpub hsched (ht.trans h12))
  rw [overlap_eq env1 env2 now1 now2 db h1 h2]
  refine ⟨List.mem_map_of_mem _ hq1, List.mem_map_of_mem _ hq2, ?_⟩
  have hany1 : ((sweepQuery now1 db).any (fun q => p.id == q.id)) = true :=
    List.any_eq_true.mpr ⟨p, hq1, by simp⟩
  have hstep1 : (if ((sweepQuery now1 db).any (fun q => p.id == q.id)) = true
      then pub now1 p else p) = pub now1 p := by rw [if_pos hany1]
  have hmem1 : pub now1 p ∈ db.map (fun r =>
      if ((sweepQuery now1 db).any (fun q => r.id == q.id)) then pub now1 r else r) := by
    rw [← hstep1]
    exact List.mem_map_of_mem _ hp
  have hany2 : ((sweepQuery now2 db).any (fun q => (pub now1 p).id == q.id)) = true :=
    List.any_eq_true.mpr ⟨p, hq2, by simp⟩
  have hstep2 : (if ((sweepQuery now2 db).any (fun q => (pub now1 p).id == q.id)) = true
      then pub now2 (pub now1 p) else pub now1 p) = pub now2 p := by
    rw [if_pos hany2]
    rfl
  exact List.mem_map.mpr ⟨pub now1 p, hmem1, hstep2⟩

/-- C5 amended witness: one due post under two overlapping sweeps at 100 and
160 with both queries first. -/
theorem overlap_double_publish_witness :
    (samplePost.slug, samplePost.language)
        ∈ (overlapBothQueriesFirst okEnv okEnv 100 160 [samplePost]).1.notified ∧
    (samplePost.slug, samplePost.language)
        ∈ (overlapBothQueriesFirst okEnv okEnv 100 160 [samplePost]).2.notified ∧
    pub 160 samplePost ∈ (overlapBothQueriesFirst okEnv okEnv 100 160 [samplePost]).2.db :=
  overlap_both_queries_first_double_publish okEnv okEnv 100 160 [samplePost]
    samplePost 90 (fun _ => rfl) (fun _ => rfl) (by simp) rfl rfl
    (by decide) (by decide)

/-- C2: running the sweep twice in immediate succession touches a post at
most once: a post published by the first sweep no longer matches the second
query of the second sweep, which therefore leaves it exactly as the first sweep
wrote it and never notifies for it. -/
theorem second_sweep_skips_published (env : SweepEnv) (now1 now2 : Nat)
    (db : List Post) (p : Post) (t : Nat)
    (h1 : env.queryFails = false) (h2 : ∀ i, env.updateFails i = false)
    (hids : (db.map Post.id).Nodup)
    (hsl : (db.map (fun r => (r.slug, r.language))).Nodup)
    (hp : p ∈ db) (hpub : p.published = false)
    (hsched : p.scheduledAt = some t) (ht : t ≤ now1) :
    (∀ q ∈ sweepQuery now2 (cronCallback env now1 db).db, q.id ≠ p.id) ∧
    (∀ q ∈ (cronCallback env now2 (cronCallback env now1 db).db).db,
        q.id = p.id → q = pub now1 p) ∧
    (p.slug, p.language) ∉ (cronCallback env now2 (cronCallback env now1 db).db).notified := by
  have hinj := List.inj_on_of_nodup_map hids
  have hinj2 := List.inj_on_of_nodup_map hsl
  have hq1 : p ∈ sweepQuery now1 db :=
    mem_sweepQuery now1 db p hp (isDue_of_fields now1 p t hpub hsched ht)
  have hany1 : ((sweepQuery now1 db).any (fun q => p.id == q.id)) = true :=
    List.any_eq_true.mpr ⟨p, hq1, by simp⟩
  have hA : ∀ x ∈ (cronCallback env now1 db).db, x.id = p.id → x = pub now1 p := by
    rw [cronCallback_ok env now1 db h1 h2]
    intro x hx hxid
    rcases List.mem_map.mp hx with ⟨r, hr, hrx⟩
    have hrid : r.id = p.id := by
      rw [← hxid, ← hrx]
      exact (ite_pub_id _ now1 r).symm
    have hrp : r = p := hinj hr hp hrid
    rw [hrp] at hrx
    rw [← hrx, if_pos hany1]
  have hA2 : ∀ x ∈ (cronCallback env now1 db).db, x.slug = p.slug →
      x.language = p.language → x = pub now1 p := by
    rw [cronCallback_ok env now1 db h1 h2]
    intro x hx hxs hxl
    rcases List.mem_map.mp hx with ⟨r, hr, hrx⟩
    have hrs : r.slug = p.slug := by
      rw [← hxs, ← hrx]
      exact (ite_pub_slug _ now1 r).symm
    have hrl : r.language = p.language := by
      rw [← hxl, ← hrx]
      exact (ite_pub_language _ now1 r).symm
    have hrp : r = p :=
      hinj2 hr hp (show (r.slug, r.language) = (p.slug, p.language) by rw [hrs, hrl])
    rw [hrp] at hrx
    rw [← hrx, if_pos hany1]
  have ha : ∀ q ∈ sweepQuery now2 (cronCallback env now1 db).db, q.id ≠ p.id := by
    intro q hq hqid
    rw [sweepQuery, List.mem_filter] at hq
    have hdue2 := hq.2
    rw [hA q hq.1 hqid, isDue_pub] at hdue2
    exact absurd hdue2 (by simp)
  refine ⟨ha, ?_, ?_⟩
  · intro q hq hqid
    rw [cronCallback_ok env now2 _ h1 h2] at hq
    rcases List.mem_map.mp hq with ⟨x, hx, hxq⟩
    have hxid : x.id = p.id := by
      rw [← hqid, ← hxq]
      exact (ite_pub_id _ now2 x).symm
    have hxp : x = pub now1 p := hA x hx hxid
    have hcond : ((sweepQuery now2 (cronCallback env now1 db).db).any
        (fun q2 => x.id == q2.id)) = false := by
      rw [List.any_eq_false]
      intro y hy hyid
      have hxy : x.id = y.id := by simpa using hyid
      exact ha y hy (hxy.symm.trans hxid)
    have hcond' : ¬(((sweepQuery now2 (cronCallback env now1 db).db).any
        (fun q2 => x.id == q2.id)) = true) := by simp [hcond]
    rw [← hxq, if_neg hcond']
    exact hxp
  · rw [cronCallback_ok env now2 _ h1 h2]
    intro hmem
    rcases List.mem_map.mp hmem with ⟨y, hy, hyeq⟩
    have hys : y.slug = p.slug := congrArg Prod.fst hyeq
    have hyl : y.language = p.language := congrArg Prod.snd hyeq
    rw [sweepQuery, List.mem_filter] at hy
    have hdue2 := hy.2
    rw [hA2 y hy.1 hys hyl, isDue_pub] at hdue2
    exact absurd hdue2 (by simp)

/-- C2 witness: one due post, swept at 100 and again at 160. -/
theorem second_sweep_skips_published_witness :
    (∀ q ∈ sweepQuery 160 (cronCallback okEnv 100 [samplePost]).db,
        q.id ≠ samplePost.id) ∧
    (∀ q ∈ (cronCallback okEnv 160 (cronCallback okEnv 100 [samplePost]).db).db,
        q.id = samplePost.id → q = pub 100 samplePost) ∧
    (samplePost.slug, samplePost.language) ∉
      (cronCallback okEnv 160 (cronCallback okEnv 100 [samplePost]).db).notified :=
  second_sweep_skips_published okEnv 100 160 [samplePost] samplePost 90 rfl
    (fun _ => rfl) (by decide) (by decide) (by simp) rfl rfl (by decide)

/-- C3 counterexample: two due posts, and the per-post update for the first
(`a1`) throws.  The claim says the second (`b2`) is still updated and its
notification still attempted; on the code the exception aborts the loop —
the database is unchanged (so `b2` is still unpublished) and nothing is
notified. -/
theorem update_failure_aborts_batch_cex :
    (cronCallback failFirstEnv 100 [samplePost, samplePost2]).db
        = [samplePost, samplePost2] ∧
    (cronCallback failFirstEnv 100 [samplePost, samplePost2]).notified = [] ∧
    (cronCallback failFirstEnv 100 [samplePost, samplePost2]).caughtError = true := by
  decide

/-- C3 amended: when the persistence update for one due post throws, the
error is caught at the sweep level (logged, no crash), but the loop aborts:
exactly the due posts before the failing one are updated and notified, and
every due post from the failing one onward is left for the next tick. -/
theorem update_failure_aborts_rest_of_batch (env : SweepEnv) (now : Nat)
    (db pre : List Post) (p : Post) (rest : List Post)
    (h1 : env.queryFails = false)
    (hsplit : sweepQuery now db = pre ++ p :: rest)
    (hpre : ∀ q ∈ pre, env.updateFails q.id = false)
    (hfail : env.updateFails p.id = true) :
    (cronCallback env now db).caughtError = true ∧
    (cronCallback env now db).notified = pre.map (fun q => (q.slug, q.language)) ∧
    (cronCallback env now db).db = db.map (fun r =>
      if pre.any (fun q => r.id == q.id) then pub now r else r) := by
  have hpre' : ∀ q ∈ pre, (fun q : Post => !env.updateFails q.id) q = true := by
    intro q hq
    simp [hpre q hq]
  have hfail' : (fun q : Post => !env.updateFails q.id) p = false := by simp [hfail]
  have htw : (sweepQuery now db).takeWhile (fun q => !env.updateFails q.id) = pre := by
    rw [hsplit]
    exact takeWhile_append_cons_stop _ pre p rest hpre' hfail'
  have hdw : (sweepQuery now db).dropWhile (fun q => !env.updateFails q.id) = p :: rest := by
    rw [hsplit]
    exact dropWhile_append_cons_stop _ pre p rest hpre' hfail'
  rw [cronCallback_eq env now db h1, htw, hdw]
  exact ⟨rfl, rfl, rfl⟩

/-- C3 amended witness: the failing post is the first due post, so nothing
in the batch is processed. -/
theorem update_failure_aborts_rest_of_batch_witness :
    (cronCallback failFirstEnv 100 [samplePost, samplePost2]).caughtError = true ∧
    (cronCallback failFirstEnv 100 [samplePost, samplePost2]).notified
      = ([] : List Post).map (fun q => (q.slug, q.language)) ∧
    (cronCallback failFirstEnv 100 [samplePost, samplePost2]).db
      = [samplePost, samplePost2].map (fun r =>
          if ([] : List Post).any (fun q => r.id == q.id) then pub 100 r else r) :=
  update_failure_aborts_rest_of_batch failFirstEnv 100 [samplePost, samplePost2]
    [] samplePost [samplePost2] rfl rfl
    (fun q hq => absurd hq (List.not_mem_nil q)) (by decide)

/-- C6: a post that is not due — `scheduledAt` null (whatever `published`
is), or strictly in the future — is never selected by the query of the sweep and
is left entirely unchanged by the sweep, whatever failures occur. -/
theorem sweep_leaves_non_due_posts (env : SweepEnv) (now : Nat) (db : List Post)
    (p : Post) (hids : (db.map Post.id).Nodup) (hp : p ∈ db)
    (hnotdue : ∀ t, p.scheduledAt = some t → now < t) :
    p ∉ sweepQuery now db ∧
    p ∈ (cronCallback env now db).db ∧
    ∀ q ∈ (cronCallback env now db).db, q.id = p.id → q = p := by
  have hdue : isDue now p = false := not_isDue_of_not_past now p hnotdue
  have hinj := List.inj_on_of_nodup_map hids
  have hnq : p ∉ sweepQuery now db := by
    intro hmem
    rw [sweepQuery, List.mem_filter, hdue] at hmem
    exact absurd hmem.2 (by simp)
  refine ⟨hnq, ?_⟩
  cases hqf : env.queryFails with
  | true =>
    rw [cronCallback_queryFails env now db hqf]
    exact ⟨hp, fun q hq hqid => hinj hq hp hqid⟩
  | false =>
    rw [cronCallback_eq env now db hqf]
    have hcond : (((sweepQuery now db).takeWhile (fun q => !env.updateFails q.id)).any
        (fun q => p.id == q.id)) = false := by
      rw [List.any_eq_false]
      intro x hx hxid
      have hxq : x ∈ sweepQuery now db :=
        (List.takeWhile_sublist _).subset hx
      rw [sweepQuery, List.mem_filter] at hxq
      have hxid' : p.id = x.id := by simpa using hxid
      have hxp : x = p := hinj hxq.1 hp hxid'.symm
      rw [hxp, hdue] at hxq
      exact absurd hxq.2 (by simp)
    have hfp : (if (((sweepQuery now db).takeWhile (fun q => !env.updateFails q.id)).any
        (fun q => p.id == q.id)) = true then pub now p else p) = p := by
      rw [hcond]
      simp
    constructor
    · rw [← hfp]
      exact List.mem_map_of_mem _ hp
    · intro q hq hqid
      rcases List.mem_map.mp hq with ⟨r, hr, hrq⟩
      have hrid : r.id = p.id := by
        rw [← hqid, ← hrq]
        exact (ite_pub_id _ now r).symm
      have hrp : r = p := hinj hr hp hrid
      rw [hrp] at hrq
      rw [← hrq]
      exact hfp

/-- C6 witness: a post scheduled at 1000 is neither selected nor changed by
the sweep at 100. -/
theorem sweep_leaves_non_due_posts_witness :
    futurePost ∉ sweepQuery 100 [futurePost] ∧
    futurePost ∈ (cronCallback okEnv 100 [futurePost]).db ∧
    ∀ q ∈ (cronCallback okEnv 100 [futurePost]).db, q.id = futurePost.id →
      q = futurePost :=
  sweep_leaves_non_due_posts okEnv 100 [futurePost] futurePost (by decide)
    (by simp) (by intro t ht; simp [futurePost] at ht; omega)

/-- C4 counterexample: the claim fails on the code.  A `POST /api/posts` body
with `published = true` and `scheduledAt = 100` is stored as given, producing
a post with `published = true` and non-null `scheduledAt`; likewise a
`PUT /api/posts/:id` that sets `scheduledAt` on an already-published post
(whose state satisfied the invariant beforehand). -/
theorem mutation_breaks_sched_invariant_cex :
    ((createPostHandler 50 "gen" [] violCreateBody).2.all schedInvariant = false) ∧
    ([livePost].all schedInvariant = true) ∧
    ((updatePostHandler [livePost] "l7" violUpdateBody).2.all schedInvariant = false) := by
  decide

/-- C4 amended: the sweep preserves the invariant that a published post has
`scheduledAt = null` (it sets `published = true` and `scheduledAt = null` in
one update), but the create and edit endpoints perform no such validation,
so a post with `published = true` and non-null `scheduledAt` is reachable
through them. -/
theorem sweep_preserves_sched_invariant (env : SweepEnv) (now : Nat)
    (db : List Post) (h : ∀ p ∈ db, schedInvariant p = true) :
    ∀ q ∈ (cronCallback env now db).db, schedInvariant q = true := by
  intro q hq
  cases hqf : env.queryFails with
  | true =>
    rw [cronCallback_queryFails env now db hqf] at hq
    exact h q hq
  | false =>
    rw [cronCallback_eq env now db hqf] at hq
    rcases List.mem_map.mp hq with ⟨r, hr, hrq⟩
    rw [← hrq]
    by_cases hc : (((sweepQuery now db).takeWhile (fun q2 => !env.updateFails q2.id)).any
        (fun q2 => r.id == q2.id)) = true
    · rw [if_pos hc]
      rfl
    · rw [if_neg hc]
      exact h r hr

/-- C4 amended witness: a database satisfying the invariant still satisfies
it after the sweep at 100. -/
theorem sweep_preserves_sched_invariant_witness :
    ((cronCallback okEnv 100 [samplePost, livePost]).db.all schedInvariant) = true :=
  List.all_eq_true.mpr
    (fun q hq =>
      sweep_preserves_sched_invariant okEnv 100 [samplePost, livePost] (by decide) q hq)

/-- C7: the outcome of the cache-invalidation call — network error, timeout,
or any response status — has no effect on anything but the log: the final
database (so the `published = true` change is never rolled back), the
requests issued, the set of posts notified (so all remaining posts of the
batch are still processed), and the caught-error flag are identical under
any two fetch-outcome assignments. -/
theorem notifier_failure_does_not_affect_sweep (qf : Bool) (uf : String → Bool)
    (o1 o2 : String → String → FetchOutcome) (fu tok : String)
    (now : Nat) (db : List Post) :
    (cronCallback ⟨qf, uf, o1, fu, tok⟩ now db).db
      = (cronCallback ⟨qf, uf, o2, fu, tok⟩ now db).db ∧
    (cronCallback ⟨qf, uf, o1, fu, tok⟩ now db).requests
      = (cronCallback ⟨qf, uf, o2, fu, tok⟩ now db).requests ∧
    (cronCallback ⟨qf, uf, o1, fu, tok⟩ now db).notified
      = (cronCallback ⟨qf, uf, o2, fu, tok⟩ now db).notified ∧
    (cronCallback ⟨qf, uf, o1, fu, tok⟩ now db).caughtError
      = (cronCallback ⟨qf, uf, o2, fu, tok⟩ now db).caughtError := by
  cases qf with
  | true =>
    rw [cronCallback_queryFails _ now db rfl, cronCallback_queryFails _ now db rfl]
    exact ⟨rfl, rfl, rfl, rfl⟩
  | false =>
    rw [cronCallback_eq _ now db rfl, cronCallback_eq _ now db rfl]
    exact ⟨rfl, rfl, rfl, rfl⟩

/-- C8: in a sweep where query and updates succeed, exactly one HTTP request
is issued per transitioned post, in order: a POST to
`{frontendUrl}/api/revalidate` with the bearer-token `Authorization` header
and JSON body `{ path: "/blog", slug }`; and the notifier classifies the
outcome as success exactly for a 2xx status, a network failure always being
the logged, swallowed error case. -/
theorem notifier_request_shape (env : SweepEnv) (now : Nat) (db : List Post)
    (h1 : env.queryFails = false) (h2 : ∀ i, env.updateFails i = false) :
    (cronCallback env now db).requests = (sweepQuery now db).map (fun q =>
      { url := env.frontendUrl ++ "/api/revalidate"
        method := "POST"
        contentType := "application/json"
        authorization := "Bearer " ++ env.revalidateToken
        body := { path := "/blog", slug := q.slug } }) ∧
    (∀ f t s l st, (revalidateCache f t s l (FetchOutcome.response st)).2
        = LogLine.revalidated s l ↔ (200 ≤ st ∧ st < 300)) ∧
    (∀ f t s l, (revalidateCache f t s l FetchOutcome.networkError).2
        = LogLine.revalidateError s) := by
  refine ⟨?_, ?_, ?_⟩
  · rw [cronCallback_ok env now db h1 h2]
    rfl
  · intro f t s l st
    rw [← responseOk_iff]
    show (if responseOk st then LogLine.revalidated s l
          else LogLine.revalidateFailed s st) = LogLine.revalidated s l
        ↔ responseOk st = true
    by_cases hst : responseOk st = true
    · simp [hst]
    · simp [hst]
  · intro f t s l
    rfl

/-- C8 witness: the sweep at 100 over the two due sample posts issues the two
expected requests, and the classification facts hold. -/
theorem notifier_request_shape_witness :
    (cronCallback okEnv 100 [samplePost, samplePost2]).requests
      = (sweepQuery 100 [samplePost, samplePost2]).map (fun q =>
        { url := okEnv.frontendUrl ++ "/api/revalidate"
          method := "POST"
          contentType := "application/json"
          authorization := "Bearer " ++ okEnv.revalidateToken
          body := { path := "/blog", slug := q.slug } }) ∧
    (∀ f t s l st, (revalidateCache f t s l (FetchOutcome.response st)).2
        = LogLine.revalidated s l ↔ (200 ≤ st ∧ st < 300)) ∧
    (∀ f t s l, (revalidateCache f t s l FetchOutcome.networkError).2
        = LogLine.revalidateError s) :=
  notifier_request_shape okEnv 100 [samplePost, samplePost2] rfl (fun _ => rfl)

end TheJordApi
